import Mathlib

set_option maxRecDepth 8000

/-!
Shallow embedding of the donation-to-reward-token program
(`src/smart contract/day2/advance/lib.rs`, Anchor program `donation_events`)
and of the plain counter program (`src/smart contract/day1/anchor/lib.rs`).

Addresses (Solana `Pubkey`s) are modelled as `Nat`.  Machine `u64` values are
`Nat`s kept below `U64`, with the overflow checks of the system program and of
the SPL token program made explicit.  Fallible operations return `Except`.
The enclosing ledger's all-or-nothing transaction commit (an external
collaborator of the program) is `commitTx`.
-/

/-- Two to the sixty-fourth: machine `u64` values are `Nat`s below this bound. -/
def U64 : Nat := 18446744073709551616

/-- Byte seed `b"donation_vault"` (vault PDA, line 116 of the donation program). -/
def donationVaultSeed : List Nat :=
  [100, 111, 110, 97, 116, 105, 111, 110, 95, 118, 97, 117, 108, 116]

/-- Byte seed `b"spacex_token_mint"` (mint PDA, line 125 of the donation program). -/
def spacexMintSeed : List Nat :=
  [115, 112, 97, 99, 101, 120, 95, 116, 111, 107, 101, 110, 95, 109, 105, 110, 116]

/-- Byte seed `b"mint_authority"` (mint-authority PDA, lines 82 and 143). -/
def mintAuthoritySeed : List Nat :=
  [109, 105, 110, 116, 95, 97, 117, 116, 104, 111, 114, 105, 116, 121]

/-- Stand-in for the program id declared by `declare_id!` (line 9); an opaque
constant address of the deployment, modelled as a small `Nat`. -/
def programId : Nat := 89

/-- Stand-in for the SPL token program id (an external collaborator's address). -/
def tokenProgramId : Nat := 2

/-- Stand-in for the associated-token program id (external collaborator). -/
def ataProgramId : Nat := 3

/-- Models the external SDK's candidate-address hash used by derived-address
computation: a deterministic accumulator standing in for SHA-256 over
(seeds, bump, program id).  Only determinism and spread matter to the program;
the concrete mixing constants are arbitrary. -/
def hashCandidate (pid : Nat) (seeds : List Nat) (bump : Nat) : Nat :=
  ((seeds.foldl (fun h b => h * 257 + (b + 1)) 7) * 256 + bump) * 1009 + pid

/-- Models the ed25519 curve-membership test of the SDK: candidate addresses
that decode to a curve point are rejected by the bump search (a PDA must have
no corresponding private key). -/
def isOnCurve (a : Nat) : Bool := a % 7 == 0

/-- Bump search of `find_program_address`: with fuel `n + 1` it tries
bump `n` first and descends; `0` fuel means the search space is exhausted. -/
def findBumpAux (pid : Nat) (seeds : List Nat) : Nat → Option (Nat × Nat)
  | 0 => none
  | fuel + 1 =>
    let cand := hashCandidate pid seeds fuel
    if isOnCurve cand then findBumpAux pid seeds fuel else some (cand, fuel)

/-- Derived-address computation (the spec's AddressDeriver): deterministic
search for the highest bump in `255, …, 0` whose candidate is off-curve;
fails if no bump in the allowed space yields a valid address. -/
def findProgramAddress (seeds : List Nat) (pid : Nat) : Option (Nat × Nat) :=
  findBumpAux pid seeds 256

/-- Address and bump of the vault PDA (seeds `[b"donation_vault"]`, lines 114-118). -/
def vaultPda : Nat × Nat := (findProgramAddress donationVaultSeed programId).getD (0, 0)

/-- Address of the CollectingAccount (vault). -/
def vaultAddr : Nat := vaultPda.1

/-- Address and bump of the reward-mint PDA (seeds `[b"spacex_token_mint"]`, line 125). -/
def spacexMintPda : Nat × Nat := (findProgramAddress spacexMintSeed programId).getD (0, 0)

/-- Address of the singleton RewardMint account. -/
def mintAddr : Nat := spacexMintPda.1

/-- Address and bump of the mint-authority PDA (seeds `[b"mint_authority"]`, lines 142-145). -/
def mintAuthorityPda : Nat × Nat := (findProgramAddress mintAuthoritySeed programId).getD (0, 0)

/-- Address of the MintAuthority capability. -/
def mintAuthorityAddr : Nat := mintAuthorityPda.1

/-- Canonical bump of the mint-authority PDA (`ctx.bumps.mint_authority`, line 82). -/
def mintAuthorityBump : Nat := mintAuthorityPda.2

/-- Signer address proven by presenting a seed-and-bump tuple to the runtime
(`CpiContext::new_with_signer`, lines 82-90): the runtime re-derives the
candidate address from the tuple. -/
def pdaSigner (seeds : List Nat) (bump : Nat) : Nat := hashCandidate programId seeds bump

/-- Derived address of the contributor's associated token account for the
reward mint (the token ledger's standard per-owner convention, lines 133-139). -/
def ataAddr (owner : Nat) : Nat :=
  ((findProgramAddress [owner, tokenProgramId, mintAddr] ataProgramId).getD (0, 0)).1

/-- SPL mint account state (the RewardMint): authority, supply, decimals.
The source inspects `mint_authority` (an `Option`) and relies on the token
program's `is_initialized` flag; `isInit` is that flag. -/
structure MintAccount where
  mintAuthority : Option Nat
  supply : Nat
  decimals : Nat
  isInit : Bool
  freezeAuthority : Option Nat
deriving DecidableEq

/-- SPL token account state (a ContributorBalance): mint, owner, amount. -/
structure TokenAccount where
  mint : Nat
  owner : Nat
  amount : Nat
deriving DecidableEq

/-- Ledger state touched by the donation program: native balances by address,
the singleton mint slot at the fixed PDA `mintAddr`, and token accounts by
address. -/
structure Chain where
  lamports : Nat → Nat
  spacexMint : Option MintAccount
  tokenAccounts : Nat → Option TokenAccount

/-- Error taxonomy of a request.  `arithmeticOverflow` is modelled from the
spec: the `ArithmeticOverflow` category of spec section 7; the program's code
contains no path returning it (line 73 is a plain unchecked division). -/
inductive TxError where
  | insufficientFunds
  | overflow
  | alreadyInUse
  | notInit
  | invalidMintAuthority
  | mintMismatch
  | constraintViolation
  | arithmeticOverflow
deriving DecidableEq

/-- Observable steps of a request, in execution order, as logged by the
handler.  `arithConversionCheck` is modelled from the spec: the defensive
arithmetic check on the conversion division claimed in spec section 7; no
statement of `record_donation` performs it, so no execution emits it. -/
inductive Step where
  | transferSol
  | checkMintInit
  | initMint
  | checkHasTokenAccount
  | createTokenAccount
  | arithConversionCheck
  | mintTo (amount : Nat)
  | emitDonationEvent
deriving DecidableEq

/-- Mint state written by the manual `initialize_mint` call of the handler
(lines 46-51): decimals as given, authority and freeze authority both the
mint-authority PDA. -/
def manualInitMint (decs authority supply : Nat) : MintAccount :=
  { mintAuthority := some authority, supply := supply, decimals := decs,
    isInit := true, freezeAuthority := some authority }

/-- Mint state written by the `init_if_needed` constraint of the accounts
block (lines 122-129): decimals 6, authority the mint-authority PDA, no
freeze authority. -/
def anchorInitMint : MintAccount :=
  { mintAuthority := some mintAuthorityAddr, supply := 0, decimals := 6,
    isInit := true, freezeAuthority := none }

/-- Write a native balance. -/
def setLamports (c : Chain) (a v : Nat) : Chain :=
  { c with lamports := fun x => if x = a then v else c.lamports x }

/-- Write a token account. -/
def setTokenAccount (c : Chain) (a : Nat) (t : TokenAccount) : Chain :=
  { c with tokenAccounts := fun x => if x = a then some t else c.tokenAccounts x }

/-- System-program transfer (lines 17-30): debit the source, credit the
destination, with the checked `u64` arithmetic of the system program. -/
def systemTransfer (src dst amount : Nat) (c : Chain) : Except TxError Chain :=
  if amount ≤ c.lamports src then
    let c1 := setLamports c src (c.lamports src - amount)
    if c1.lamports dst + amount < U64 then
      Except.ok (setLamports c1 dst (c1.lamports dst + amount))
    else Except.error TxError.overflow
  else Except.error TxError.insufficientFunds

/-- Token-program `initialize_mint` (lines 46-51): fails on an unallocated or
already-initialized account, otherwise records decimals and both authorities. -/
def initMintOp (decs authority : Nat) (c : Chain) : Except TxError Chain :=
  match c.spacexMint with
  | none => Except.error TxError.notInit
  | some m =>
    if m.isInit then Except.error TxError.alreadyInUse
    else Except.ok { c with spacexMint := some (manualInitMint decs authority m.supply) }

/-- Associated-token-program `create` (lines 56-68): allocates the
contributor's token account for the reward mint with zero amount. -/
def ataCreate (owner : Nat) (c : Chain) : Except TxError Chain :=
  match c.tokenAccounts (ataAddr owner) with
  | some _ => Except.error TxError.alreadyInUse
  | none => Except.ok (setTokenAccount c (ataAddr owner)
      { mint := mintAddr, owner := owner, amount := 0 })

/-- Token-program `mint_to` (lines 76-92): the mint must be initialized, the
signer must match its authority, the destination must hold this mint, and both
the supply and the destination amount use checked `u64` addition. -/
def mintTo (signer dest amount : Nat) (c : Chain) : Except TxError Chain :=
  match c.spacexMint with
  | none => Except.error TxError.notInit
  | some m =>
    if m.isInit then
      if m.mintAuthority = some signer then
        match c.tokenAccounts dest with
        | none => Except.error TxError.notInit
        | some t =>
          if t.mint = mintAddr then
            if m.supply + amount < U64 then
              if t.amount + amount < U64 then
                Except.ok { c with
                  spacexMint := some { m with supply := m.supply + amount },
                  tokenAccounts := fun x =>
                    if x = dest then some { t with amount := t.amount + amount }
                    else c.tokenAccounts x }
              else Except.error TxError.overflow
            else Except.error TxError.overflow
          else Except.error TxError.mintMismatch
      else Except.error TxError.invalidMintAuthority
    else Except.error TxError.notInit

/-- Helper `is_mint_initialized` (lines 156-158): whether the mint's
authority field is populated. -/
def isMintInit (c : Chain) : Bool :=
  match c.spacexMint with
  | none => false
  | some m => m.mintAuthority.isSome

/-- Helper `has_token_account` (lines 161-163): whether the stored owner field
of the user token account equals the donor's identity. -/
def hasTokenAccount (donor : Nat) (c : Chain) : Bool :=
  match c.tokenAccounts (ataAddr donor) with
  | none => false
  | some t => t.owner == donor

/-- Reward conversion (line 73): `amount / 1_000_000`, a plain integer floor
division with no defensive check. -/
def rewardOf (amount : Nat) : Nat := amount / 1000000

/-- Tail of the handler after provisioning (lines 72-104): compute the reward,
`mint_to` signed with the mint-authority seed-and-bump tuple, then emit the
donation event. -/
def mintAndLog (donor amount : Nat) (c : Chain) (tr : List Step) :
    Except TxError Chain × List Step :=
  let reward := rewardOf amount
  match mintTo (pdaSigner mintAuthoritySeed mintAuthorityBump) (ataAddr donor) reward c with
  | Except.error e => (Except.error e, tr ++ [Step.mintTo reward])
  | Except.ok c2 => (Except.ok c2, tr ++ [Step.mintTo reward, Step.emitDonationEvent])

/-- Handler body of `record_donation` (lines 15-105): transfer to the vault,
then the conditional provisioning branch guarded by `is_mint_initialized`
(with the `has_token_account` check and token-account creation nested inside
it, lines 53-69), then mint and log. -/
def handlerBody (donor amount : Nat) (c : Chain) : Except TxError Chain × List Step :=
  match systemTransfer donor vaultAddr amount c with
  | Except.error e => (Except.error e, [Step.transferSol])
  | Except.ok c1 =>
    if isMintInit c1 then
      mintAndLog donor amount c1 [Step.transferSol, Step.checkMintInit]
    else
      match initMintOp 6 mintAuthorityAddr c1 with
      | Except.error e => (Except.error e, [Step.transferSol, Step.checkMintInit, Step.initMint])
      | Except.ok c2 =>
        if hasTokenAccount donor c2 then
          mintAndLog donor amount c2
            [Step.transferSol, Step.checkMintInit, Step.initMint, Step.checkHasTokenAccount]
        else
          match ataCreate donor c2 with
          | Except.error e => (Except.error e,
              [Step.transferSol, Step.checkMintInit, Step.initMint,
               Step.checkHasTokenAccount, Step.createTokenAccount])
          | Except.ok c3 =>
            mintAndLog donor amount c3
              [Step.transferSol, Step.checkMintInit, Step.initMint,
               Step.checkHasTokenAccount, Step.createTokenAccount]

/-- Associated-token half of the account-validation phase: `init_if_needed`
on `user_token_account` (lines 133-139) creates the contributor's token
account with zero amount when absent, and re-verifies the associated-token
constraints (owner = donor, mint = spacex_mint) when present. -/
def validateAta (donor : Nat) (c : Chain) : Except TxError Chain :=
  match c.tokenAccounts (ataAddr donor) with
  | none => Except.ok (setTokenAccount c (ataAddr donor)
      { mint := mintAddr, owner := donor, amount := 0 })
  | some t =>
    if t.owner = donor ∧ t.mint = mintAddr then Except.ok c
    else Except.error TxError.constraintViolation

/-- Account-validation phase generated by the `#[derive(Accounts)]` block
(lines 108-152), with the framework's documented `init_if_needed` semantics:
when the mint slot is empty, create and initialize the mint with decimals 6
and the mint-authority PDA as authority (lines 122-129); when it is occupied,
re-verify the declared `mint::decimals` and `mint::authority` constraints.
Then the associated-token half.  Rent funding is abstracted away. -/
def validateAccounts (donor : Nat) (c : Chain) : Except TxError Chain :=
  match c.spacexMint with
  | none =>
    validateAta donor { c with spacexMint := some anchorInitMint }
  | some m =>
    if m.isInit ∧ m.decimals = 6 ∧ m.mintAuthority = some mintAuthorityAddr then
      validateAta donor c
    else Except.error TxError.constraintViolation

/-- One `record_donation(amount)` request: account validation, then the
handler, as a single transaction.  The second component is the observable
step log of the attempt. -/
def recordDonation (donor amount : Nat) (c : Chain) : Except TxError Chain × List Step :=
  match validateAccounts donor c with
  | Except.error e => (Except.error e, [])
  | Except.ok c0 => handlerBody donor amount c0

/-- Ledger commit (the external substrate of spec section 5): a transaction is
all-or-nothing, so an error leaves the pre-state untouched. -/
def commitTx (c : Chain) (r : Except TxError Chain) : Chain :=
  match r with
  | Except.ok c' => c'
  | Except.error _ => c

/-- Counter account of the plain counter program
(`src/smart contract/day1/anchor/lib.rs`, lines 42-45); `count` is a `u32`. -/
structure Counter where
  count : Nat
deriving DecidableEq

/-- Counter `decrement` (lines 26-31): `count.saturating_sub(1)`, always `Ok`.
Truncated `Nat` subtraction is exactly `u32` saturating subtraction. -/
def counterDecrement (c : Counter) : Except TxError Counter :=
  Except.ok { count := c.count - 1 }

/-- Counter `increment` (lines 18-23): `count += 1`, wrapping `u32` addition
in a release build, always `Ok`. -/
def counterIncrement (c : Counter) : Except TxError Counter :=
  Except.ok { count := (c.count + 1) % 4294967296 }

/-- Fresh deployment with two funded donors `101` and `202`: no mint, no
token accounts. -/
def chainA : Chain :=
  { lamports := fun x => if x = 101 then 10000000000 else if x = 202 then 10000000000 else 0,
    spacexMint := none,
    tokenAccounts := fun _ => none }

/-- Deployment where the reward mint already exists but donor `101` has no
token account yet. -/
def chainB : Chain :=
  { lamports := fun x => if x = 101 then 10000000000 else 0,
    spacexMint := some anchorInitMint,
    tokenAccounts := fun _ => none }

/-- Deployment where the mint exists with supply 40 and donor `101` already
holds a token account with 12 reward tokens. -/
def chainC : Chain :=
  { lamports := fun x => if x = 101 then 10000000000 else 0,
    spacexMint := some ⟨some mintAuthorityAddr, 40, 6, true, none⟩,
    tokenAccounts := fun x => if x = ataAddr 101 then some ⟨mintAddr, 101, 12⟩ else none }

/-- Deployment whose mint supply sits at the `u64` maximum, so that the next
nonzero mint must overflow the token program's checked addition. -/
def chainD : Chain :=
  { lamports := fun x => if x = 101 then 10000000000 else 0,
    spacexMint := some ⟨some mintAuthorityAddr, 18446744073709551615, 6, true, none⟩,
    tokenAccounts := fun x => if x = ataAddr 101 then some ⟨mintAddr, 101, 0⟩ else none }

/-- Fresh deployment with donor `101` holding the maximal `u64` balance. -/
def chainMax : Chain :=
  { lamports := fun x => if x = 101 then 18446744073709551615 else 0,
    spacexMint := none,
    tokenAccounts := fun _ => none }

/-- Committed state of one seven-SOL-millionths donation by `101` on `chainA`. -/
def chainA2 : Chain := commitTx chainA (recordDonation 101 7000000 chainA).1

/-- The signer proven by the mint-authority seed-and-bump tuple is exactly the
mint-authority PDA address. -/
theorem signer_eq : pdaSigner mintAuthoritySeed mintAuthorityBump = mintAuthorityAddr := by
  decide

/-- Successful system transfer between distinct addresses: destination
credited, source debited, everything else untouched. -/
theorem systemTransfer_ok (src dst amount : Nat) (c : Chain)
    (hne : src ≠ dst) (hbal : amount ≤ c.lamports src)
    (hcap : c.lamports dst + amount < U64) :
    ∃ c1, systemTransfer src dst amount c = Except.ok c1 ∧
      c1.lamports dst = c.lamports dst + amount ∧
      c1.lamports src = c.lamports src - amount ∧
      (∀ x, x ≠ src → x ≠ dst → c1.lamports x = c.lamports x) ∧
      c1.spacexMint = c.spacexMint ∧
      (∀ x, c1.tokenAccounts x = c.tokenAccounts x) := by
  have hds : dst ≠ src := Ne.symm hne
  refine ⟨setLamports (setLamports c src (c.lamports src - amount)) dst
    (c.lamports dst + amount), ?_, ?_, ?_, ?_, ?_, ?_⟩
  · simp [systemTransfer, setLamports, hbal, hds, hcap]
  · simp [setLamports]
  · simp [setLamports, hds, hne]
  · intro x hxs hxd
    simp [setLamports, hxs, hxd]
  · simp [setLamports]
  · intro x
    simp [setLamports]

/-- Successful donation when the mint and the contributor's token account both
already exist and are well-formed: the vault is credited, the mint branch is
skipped, and the reward is added to the existing token balance. -/
theorem recordDonation_existing_ok
    (donor amount : Nat) (c : Chain) (m : MintAccount) (t : TokenAccount)
    (hm : c.spacexMint = some m) (hmI : m.isInit = true) (hmD : m.decimals = 6)
    (hmA : m.mintAuthority = some mintAuthorityAddr)
    (ht : c.tokenAccounts (ataAddr donor) = some t)
    (htO : t.owner = donor) (htM : t.mint = mintAddr)
    (hdv : donor ≠ vaultAddr)
    (hbal : amount ≤ c.lamports donor)
    (hcap : c.lamports vaultAddr + amount < U64)
    (hsup : m.supply + rewardOf amount < U64)
    (hta : t.amount + rewardOf amount < U64) :
    ∃ c2,
      recordDonation donor amount c =
        (Except.ok c2,
         [Step.transferSol, Step.checkMintInit, Step.mintTo (rewardOf amount),
          Step.emitDonationEvent]) ∧
      c2.lamports vaultAddr = c.lamports vaultAddr + amount ∧
      c2.lamports donor = c.lamports donor - amount ∧
      (∀ x, x ≠ donor → x ≠ vaultAddr → c2.lamports x = c.lamports x) ∧
      c2.spacexMint = some { m with supply := m.supply + rewardOf amount } ∧
      c2.tokenAccounts (ataAddr donor) =
        some { mint := mintAddr, owner := donor, amount := t.amount + rewardOf amount } ∧
      (∀ x, x ≠ ataAddr donor → c2.tokenAccounts x = c.tokenAccounts x) := by
  have hvd : vaultAddr ≠ donor := Ne.symm hdv
  refine ⟨{ lamports := fun x => if x = vaultAddr then c.lamports vaultAddr + amount
              else if x = donor then c.lamports donor - amount else c.lamports x,
            spacexMint := some { m with supply := m.supply + rewardOf amount },
            tokenAccounts := fun x => if x = ataAddr donor
              then some { t with amount := t.amount + rewardOf amount }
              else c.tokenAccounts x }, ?_, ?_, ?_, ?_, ?_, ?_, ?_⟩
  · simp [recordDonation, validateAccounts, validateAta, handlerBody, mintAndLog,
      systemTransfer, setLamports, isMintInit, mintTo, signer_eq,
      hm, hmI, hmD, hmA, ht, htO, htM, hvd, hbal, hcap, hsup, hta]
  · simp
  · simp [hvd, hdv]
  · intro x hxd hxv
    simp [hxd, hxv]
  · simp
  · simp [htO, htM]
  · intro x hx
    simp [hx]

/-- Validation-phase equation when the mint exists and is well-formed but the
contributor has no token account: `init_if_needed` creates the token account
with zero amount. -/
theorem validateAccounts_freshToken_eq
    (donor : Nat) (c : Chain) (m : MintAccount)
    (hm : c.spacexMint = some m) (hmI : m.isInit = true) (hmD : m.decimals = 6)
    (hmA : m.mintAuthority = some mintAuthorityAddr)
    (ht : c.tokenAccounts (ataAddr donor) = none) :
    validateAccounts donor c =
      Except.ok (setTokenAccount c (ataAddr donor)
        { mint := mintAddr, owner := donor, amount := 0 }) := by
  simp [validateAccounts, validateAta, hm, hmI, hmD, hmA, ht]

/-- Validation-phase equation on a fresh deployment: `init_if_needed` creates
and initializes the mint and creates the contributor's token account with
zero amount. -/
theorem validateAccounts_freshAll_eq
    (donor : Nat) (c : Chain)
    (hm : c.spacexMint = none)
    (ht : c.tokenAccounts (ataAddr donor) = none) :
    validateAccounts donor c =
      Except.ok (setTokenAccount { c with spacexMint := some anchorInitMint }
        (ataAddr donor) { mint := mintAddr, owner := donor, amount := 0 }) := by
  simp [validateAccounts, validateAta, setTokenAccount, hm, ht]

/-- Handler-body equation when the mint is initialized with the PDA authority
and the token account exists for this mint: transfer, skip the provisioning
branch, mint the reward onto the existing amount, log. -/
theorem handlerBody_ready_ok
    (donor amount : Nat) (c : Chain) (m : MintAccount) (t : TokenAccount)
    (hm : c.spacexMint = some m) (hmI : m.isInit = true)
    (hmA : m.mintAuthority = some mintAuthorityAddr)
    (ht : c.tokenAccounts (ataAddr donor) = some t) (htM : t.mint = mintAddr)
    (hdv : donor ≠ vaultAddr)
    (hbal : amount ≤ c.lamports donor)
    (hcap : c.lamports vaultAddr + amount < U64)
    (hsup : m.supply + rewardOf amount < U64)
    (hta : t.amount + rewardOf amount < U64) :
    ∃ c2,
      handlerBody donor amount c =
        (Except.ok c2,
         [Step.transferSol, Step.checkMintInit, Step.mintTo (rewardOf amount),
          Step.emitDonationEvent]) ∧
      c2.lamports vaultAddr = c.lamports vaultAddr + amount ∧
      c2.lamports donor = c.lamports donor - amount ∧
      (∀ x, x ≠ donor → x ≠ vaultAddr → c2.lamports x = c.lamports x) ∧
      c2.spacexMint = some { m with supply := m.supply + rewardOf amount } ∧
      c2.tokenAccounts (ataAddr donor) =
        some { t with amount := t.amount + rewardOf amount } ∧
      (∀ x, x ≠ ataAddr donor → c2.tokenAccounts x = c.tokenAccounts x) := by
  have hvd : vaultAddr ≠ donor := Ne.symm hdv
  refine ⟨{ lamports := fun x => if x = vaultAddr then c.lamports vaultAddr + amount
              else if x = donor then c.lamports donor - amount else c.lamports x,
            spacexMint := some { m with supply := m.supply + rewardOf amount },
            tokenAccounts := fun x => if x = ataAddr donor
              then some { t with amount := t.amount + rewardOf amount }
              else c.tokenAccounts x }, ?_, ?_, ?_, ?_, ?_, ?_, ?_⟩
  · simp [handlerBody, mintAndLog, systemTransfer, setLamports, isMintInit,
      mintTo, signer_eq, hm, hmI, hmA, ht, htM, hvd, hbal, hcap, hsup, hta]
  · simp
  · simp [hvd, hdv]
  · intro x hxd hxv
    simp [hxd, hxv]
  · simp
  · simp
  · intro x hx
    simp [hx]

/-- Successful donation when the mint already exists but the contributor has
no token account: the validation phase creates the token account with zero
amount, the handler skips the mint branch and mints onto the fresh account. -/
theorem recordDonation_freshToken_ok
    (donor amount : Nat) (c : Chain) (m : MintAccount)
    (hm : c.spacexMint = some m) (hmI : m.isInit = true) (hmD : m.decimals = 6)
    (hmA : m.mintAuthority = some mintAuthorityAddr)
    (ht : c.tokenAccounts (ataAddr donor) = none)
    (hdv : donor ≠ vaultAddr)
    (hbal : amount ≤ c.lamports donor)
    (hcap : c.lamports vaultAddr + amount < U64)
    (hsup : m.supply + rewardOf amount < U64)
    (hrw : rewardOf amount < U64) :
    ∃ c2,
      recordDonation donor amount c =
        (Except.ok c2,
         [Step.transferSol, Step.checkMintInit, Step.mintTo (rewardOf amount),
          Step.emitDonationEvent]) ∧
      c2.lamports vaultAddr = c.lamports vaultAddr + amount ∧
      c2.lamports donor = c.lamports donor - amount ∧
      (∀ x, x ≠ donor → x ≠ vaultAddr → c2.lamports x = c.lamports x) ∧
      c2.spacexMint = some { m with supply := m.supply + rewardOf amount } ∧
      c2.tokenAccounts (ataAddr donor) =
        some { mint := mintAddr, owner := donor, amount := rewardOf amount } ∧
      (∀ x, x ≠ ataAddr donor → c2.tokenAccounts x = c.tokenAccounts x) := by
  have hval := validateAccounts_freshToken_eq donor c m hm hmI hmD hmA ht
  set c0 : Chain := setTokenAccount c (ataAddr donor)
    { mint := mintAddr, owner := donor, amount := 0 } with hc0
  have h0m : c0.spacexMint = some m := by simp [hc0, setTokenAccount, hm]
  have h0t : c0.tokenAccounts (ataAddr donor) =
      some { mint := mintAddr, owner := donor, amount := 0 } := by
    simp [hc0, setTokenAccount]
  have h0l : ∀ x, c0.lamports x = c.lamports x := fun x => by simp [hc0, setTokenAccount]
  obtain ⟨c2, heq, hv, hd, hl, hmint, htok, htoks⟩ :=
    handlerBody_ready_ok donor amount c0 m { mint := mintAddr, owner := donor, amount := 0 }
      h0m hmI hmA h0t rfl hdv (by rw [h0l]; exact hbal) (by rw [h0l]; exact hcap) hsup
      (by simpa using hrw)
  refine ⟨c2, ?_, ?_, ?_, ?_, hmint, by simpa using htok, ?_⟩
  · rw [recordDonation, hval]
    exact heq
  · rw [hv, h0l]
  · rw [hd, h0l]
  · intro x hxd hxv
    rw [hl x hxd hxv, h0l]
  · intro x hx
    rw [htoks x hx]
    simp [hc0, setTokenAccount, hx]

/-- Successful first donation of a deployment: the validation phase creates
and initializes the mint (decimals 6, mint-authority PDA) and the
contributor's token account, the handler skips its (dead) provisioning
branch, and the reward lands on the fresh account. -/
theorem recordDonation_freshAll_ok
    (donor amount : Nat) (c : Chain)
    (hm : c.spacexMint = none)
    (ht : c.tokenAccounts (ataAddr donor) = none)
    (hdv : donor ≠ vaultAddr)
    (hbal : amount ≤ c.lamports donor)
    (hcap : c.lamports vaultAddr + amount < U64)
    (hrw : rewardOf amount < U64) :
    ∃ c2,
      recordDonation donor amount c =
        (Except.ok c2,
         [Step.transferSol, Step.checkMintInit, Step.mintTo (rewardOf amount),
          Step.emitDonationEvent]) ∧
      c2.lamports vaultAddr = c.lamports vaultAddr + amount ∧
      c2.lamports donor = c.lamports donor - amount ∧
      (∀ x, x ≠ donor → x ≠ vaultAddr → c2.lamports x = c.lamports x) ∧
      c2.spacexMint = some { anchorInitMint with supply := rewardOf amount } ∧
      c2.tokenAccounts (ataAddr donor) =
        some { mint := mintAddr, owner := donor, amount := rewardOf amount } ∧
      (∀ x, x ≠ ataAddr donor → c2.tokenAccounts x = c.tokenAccounts x) := by
  have hval := validateAccounts_freshAll_eq donor c hm ht
  set c0 : Chain := setTokenAccount { c with spacexMint := some anchorInitMint }
    (ataAddr donor) { mint := mintAddr, owner := donor, amount := 0 } with hc0
  have h0m : c0.spacexMint = some anchorInitMint := by simp [hc0, setTokenAccount]
  have h0t : c0.tokenAccounts (ataAddr donor) =
      some { mint := mintAddr, owner := donor, amount := 0 } := by
    simp [hc0, setTokenAccount]
  have h0l : ∀ x, c0.lamports x = c.lamports x := fun x => by simp [hc0, setTokenAccount]
  obtain ⟨c2, heq, hv, hd, hl, hmint, htok, htoks⟩ :=
    handlerBody_ready_ok donor amount c0 anchorInitMint
      { mint := mintAddr, owner := donor, amount := 0 }
      h0m rfl rfl h0t rfl hdv (by rw [h0l]; exact hbal) (by rw [h0l]; exact hcap)
      (by simpa [anchorInitMint] using hrw) (by simpa using hrw)
  refine ⟨c2, ?_, ?_, ?_, ?_, ?_, by simpa using htok, ?_⟩
  · rw [recordDonation, hval]
    exact heq
  · rw [hv, h0l]
  · rw [hd, h0l]
  · intro x hxd hxv
    rw [hl x hxd hxv, h0l]
  · rw [hmint]
    simp [anchorInitMint]
  · intro x hx
    rw [htoks x hx]
    simp [hc0, setTokenAccount, hx]

/-- Forced failure of the final mint step: when the mint's supply has no room
for the reward, the transfer step still succeeds on its own, but the request
as a whole returns the token program's overflow error. -/
theorem recordDonation_mintStep_fails
    (donor amount : Nat) (c : Chain) (m : MintAccount) (t : TokenAccount)
    (hm : c.spacexMint = some m) (hmI : m.isInit = true) (hmD : m.decimals = 6)
    (hmA : m.mintAuthority = some mintAuthorityAddr)
    (ht : c.tokenAccounts (ataAddr donor) = some t)
    (htO : t.owner = donor) (htM : t.mint = mintAddr)
    (hdv : donor ≠ vaultAddr)
    (hbal : amount ≤ c.lamports donor)
    (hcap : c.lamports vaultAddr + amount < U64)
    (hnsup : U64 ≤ m.supply + rewardOf amount) :
    recordDonation donor amount c =
      (Except.error TxError.overflow,
       [Step.transferSol, Step.checkMintInit, Step.mintTo (rewardOf amount)]) := by
  have hvd : vaultAddr ≠ donor := Ne.symm hdv
  have hns : ¬ (m.supply + rewardOf amount < U64) := Nat.not_lt.mpr hnsup
  simp [recordDonation, validateAccounts, validateAta, handlerBody, mintAndLog,
    systemTransfer, setLamports, isMintInit, mintTo, signer_eq,
    hm, hmI, hmD, hmA, ht, htO, htM, hvd, hbal, hcap, hns]

/-- The associated-token validation half never produces an arithmetic error. -/
theorem validateAta_ne_arith (d : Nat) (c : Chain) :
    validateAta d c ≠ Except.error TxError.arithmeticOverflow := by
  intro h
  unfold validateAta at h
  repeat' split at h
  all_goals simp_all

/-- The account-validation phase never produces an arithmetic error. -/
theorem validateAccounts_ne_arith (d : Nat) (c : Chain) :
    validateAccounts d c ≠ Except.error TxError.arithmeticOverflow := by
  intro h
  unfold validateAccounts at h
  repeat' split at h
  · exact validateAta_ne_arith _ _ h
  · exact validateAta_ne_arith _ _ h
  · simp_all

/-- The system transfer never produces an arithmetic error of the
conversion-check kind. -/
theorem systemTransfer_ne_arith (src dst a : Nat) (c : Chain) :
    systemTransfer src dst a c ≠ Except.error TxError.arithmeticOverflow := by
  intro h
  unfold systemTransfer at h
  split at h
  · simp only [] at h
    split at h <;> simp_all
  · simp_all

/-- The manual mint-initialization call never produces an arithmetic error. -/
theorem initMintOp_ne_arith (d a : Nat) (c : Chain) :
    initMintOp d a c ≠ Except.error TxError.arithmeticOverflow := by
  intro h
  unfold initMintOp at h
  repeat' split at h
  all_goals simp_all

/-- The associated-token creation call never produces an arithmetic error. -/
theorem ataCreate_ne_arith (o : Nat) (c : Chain) :
    ataCreate o c ≠ Except.error TxError.arithmeticOverflow := by
  intro h
  unfold ataCreate at h
  repeat' split at h
  all_goals simp_all

/-- The token-program mint operation never produces an arithmetic error of
the conversion-check kind. -/
theorem mintTo_ne_arith (s d a : Nat) (c : Chain) :
    mintTo s d a c ≠ Except.error TxError.arithmeticOverflow := by
  intro h
  unfold mintTo at h
  repeat' split at h
  all_goals simp_all

/-- The mint-and-log tail neither performs the spec's conversion check nor
produces an arithmetic error, whatever state it runs on. -/
theorem mintAndLog_no_arith (donor amount : Nat) (c : Chain) (tr : List Step)
    (htr : Step.arithConversionCheck ∉ tr) :
    Step.arithConversionCheck ∉ (mintAndLog donor amount c tr).2 ∧
    (mintAndLog donor amount c tr).1 ≠ Except.error TxError.arithmeticOverflow := by
  rw [mintAndLog]
  rcases hmt : mintTo (pdaSigner mintAuthoritySeed mintAuthorityBump) (ataAddr donor)
      (rewardOf amount) c with e | c2
  · refine ⟨by simp [htr], ?_⟩
    intro h
    simp only at h
    injection h with he
    rw [he] at hmt
    exact mintTo_ne_arith _ _ _ _ hmt
  · exact ⟨by simp [htr], by simp⟩

/-- The handler body neither performs the spec's conversion check nor
produces an arithmetic error. -/
theorem handlerBody_no_arith (donor amount : Nat) (c : Chain) :
    Step.arithConversionCheck ∉ (handlerBody donor amount c).2 ∧
    (handlerBody donor amount c).1 ≠ Except.error TxError.arithmeticOverflow := by
  rw [handlerBody]
  rcases htr : systemTransfer donor vaultAddr amount c with e | c1
  · refine ⟨by simp, ?_⟩
    intro h
    simp only at h
    injection h with he
    rw [he] at htr
    exact systemTransfer_ne_arith _ _ _ _ htr
  · by_cases hmi : isMintInit c1
    · simp only [hmi, if_true]
      exact mintAndLog_no_arith donor amount c1 _ (by simp)
    · simp only [hmi, if_false]
      rcases him : initMintOp 6 mintAuthorityAddr c1 with e | c2
      · refine ⟨by simp, ?_⟩
        intro h
        simp only at h
        injection h with he
        rw [he] at him
        exact initMintOp_ne_arith _ _ _ him
      · by_cases hht : hasTokenAccount donor c2
        · simp only [hht, if_true]
          exact mintAndLog_no_arith donor amount c2 _ (by simp)
        · simp only [hht, if_false]
          rcases hac : ataCreate donor c2 with e | c3
          · refine ⟨by simp, ?_⟩
            intro h
            simp only at h
            injection h with he
            rw [he] at hac
            exact ataCreate_ne_arith _ _ hac
          · exact mintAndLog_no_arith donor amount c3 _ (by simp)

/-- C7 amended: the reward conversion of record_donation (line 73) is a plain
total integer floor division; no execution performs a defensive arithmetic
check on it and no request ever aborts with the spec's ArithmeticOverflow
error. -/
theorem conversion_division_unchecked (donor amount : Nat) (c : Chain) :
    Step.arithConversionCheck ∉ (recordDonation donor amount c).2 ∧
    (recordDonation donor amount c).1 ≠ Except.error TxError.arithmeticOverflow := by
  rw [recordDonation]
  rcases hval : validateAccounts donor c with e | c0
  · refine ⟨by simp, ?_⟩
    intro h
    simp only at h
    injection h with he
    rw [he] at hval
    exact validateAccounts_ne_arith _ _ hval
  · exact handlerBody_no_arith donor amount c0

/-- C7 counterexample: at the most overflow-prone input of all, the maximal
u64 amount, the request succeeds, its log shows no arithmetic check, and the
conversion quotient is computed unchecked. -/
theorem no_arith_check_at_max_cex :
    (recordDonation 101 18446744073709551615 chainMax).1.isOk = true ∧
    Step.arithConversionCheck ∉ (recordDonation 101 18446744073709551615 chainMax).2 ∧
    rewardOf 18446744073709551615 = 18446744073709 := by
  decide

/-- Inversion of the associated-token validation half: on success the
balances and mint are untouched, other token accounts are untouched, and the
contributor's slot is either left alone or freshly created with zero amount. -/
theorem validateAta_inv (d : Nat) (c c0 : Chain) (h : validateAta d c = Except.ok c0) :
    (∀ x, c0.lamports x = c.lamports x) ∧ c0.spacexMint = c.spacexMint ∧
    (∀ x, x ≠ ataAddr d → c0.tokenAccounts x = c.tokenAccounts x) ∧
    (c0.tokenAccounts (ataAddr d) = c.tokenAccounts (ataAddr d) ∨
      (c.tokenAccounts (ataAddr d) = none ∧
        c0.tokenAccounts (ataAddr d) = some { mint := mintAddr, owner := d, amount := 0 })) := by
  unfold validateAta at h
  rcases hx : c.tokenAccounts (ataAddr d) with _ | t
  · simp only [hx] at h
    injection h with h'
    subst h'
    exact ⟨fun x => rfl, rfl, fun x hxe => by simp [setTokenAccount, hxe],
      Or.inr ⟨rfl, by simp [setTokenAccount]⟩⟩
  · simp only [hx] at h
    by_cases hcond : t.owner = d ∧ t.mint = mintAddr
    · rw [if_pos hcond] at h
      injection h with h'
      subst h'
      exact ⟨fun x => rfl, rfl, fun x _ => rfl, Or.inl hx⟩
    · rw [if_neg hcond] at h
      exact absurd h (by simp)

/-- Inversion of the account-validation phase: on success the balances are
untouched, other token accounts are untouched, and the contributor's slot is
either left alone or freshly created with zero amount. -/
theorem validateAccounts_inv (d : Nat) (c c0 : Chain)
    (h : validateAccounts d c = Except.ok c0) :
    (∀ x, c0.lamports x = c.lamports x) ∧
    (∀ x, x ≠ ataAddr d → c0.tokenAccounts x = c.tokenAccounts x) ∧
    (c0.tokenAccounts (ataAddr d) = c.tokenAccounts (ataAddr d) ∨
      (c.tokenAccounts (ataAddr d) = none ∧
        c0.tokenAccounts (ataAddr d) = some { mint := mintAddr, owner := d, amount := 0 })) := by
  unfold validateAccounts at h
  rcases hm : c.spacexMint with _ | m
  · simp only [hm] at h
    obtain ⟨hl, _, hts, hta⟩ := validateAta_inv d _ _ h
    exact ⟨hl, hts, hta⟩
  · simp only [hm] at h
    by_cases hcond : m.isInit ∧ m.decimals = 6 ∧ m.mintAuthority = some mintAuthorityAddr
    · rw [if_pos hcond] at h
      obtain ⟨hl, _, hts, hta⟩ := validateAta_inv d _ _ h
      exact ⟨hl, hts, hta⟩
    · rw [if_neg hcond] at h
      exact absurd h (by simp)

/-- Inversion of the system transfer: on success the token accounts and mint
are untouched and a transfer between distinct addresses credits the
destination by exactly the amount. -/
theorem systemTransfer_inv (src dst a : Nat) (c c1 : Chain)
    (h : systemTransfer src dst a c = Except.ok c1) :
    (∀ x, c1.tokenAccounts x = c.tokenAccounts x) ∧ c1.spacexMint = c.spacexMint ∧
    (src ≠ dst → c1.lamports dst = c.lamports dst + a) := by
  unfold systemTransfer at h
  by_cases hb : a ≤ c.lamports src
  · rw [if_pos hb] at h
    simp only [] at h
    by_cases hc : (setLamports c src (c.lamports src - a)).lamports dst + a < U64
    · rw [if_pos hc] at h
      injection h with h'
      subst h'
      refine ⟨fun x => by simp [setLamports], by simp [setLamports], fun hsd => ?_⟩
      simp [setLamports, Ne.symm hsd]
    · rw [if_neg hc] at h
      exact absurd h (by simp)
  · rw [if_neg hb] at h
    exact absurd h (by simp)

/-- Inversion of the manual mint initialization: on success only the mint
slot changes. -/
theorem initMintOp_inv (dcs au : Nat) (c c2 : Chain)
    (h : initMintOp dcs au c = Except.ok c2) :
    (∀ x, c2.lamports x = c.lamports x) ∧
    (∀ x, c2.tokenAccounts x = c.tokenAccounts x) := by
  unfold initMintOp at h
  rcases hm : c.spacexMint with _ | m
  · simp only [hm] at h
    exact absurd h (by simp)
  · simp only [hm] at h
    by_cases hI : m.isInit
    · rw [if_pos hI] at h
      exact absurd h (by simp)
    · rw [if_neg hI] at h
      injection h with h'
      subst h'
      exact ⟨fun x => rfl, fun x => rfl⟩

/-- Inversion of the associated-token creation: on success the balances and
mint are untouched and the owner's slot goes from absent to a zero-amount
account. -/
theorem ataCreate_inv (o : Nat) (c c2 : Chain) (h : ataCreate o c = Except.ok c2) :
    (∀ x, c2.lamports x = c.lamports x) ∧ c2.spacexMint = c.spacexMint ∧
    (∀ x, x ≠ ataAddr o → c2.tokenAccounts x = c.tokenAccounts x) ∧
    c.tokenAccounts (ataAddr o) = none ∧
    c2.tokenAccounts (ataAddr o) = some { mint := mintAddr, owner := o, amount := 0 } := by
  unfold ataCreate at h
  rcases hx : c.tokenAccounts (ataAddr o) with _ | t
  · simp only [hx] at h
    injection h with h'
    subst h'
    exact ⟨fun x => rfl, rfl, fun x hxe => by simp [setTokenAccount, hxe], rfl,
      by simp [setTokenAccount]⟩
  · simp only [hx] at h
    exact absurd h (by simp)

/-- Inversion of the token-program mint operation: on success the balances
are untouched, other token accounts are untouched, and the destination's
amount grows by exactly the minted amount. -/
theorem mintTo_inv (s d a : Nat) (c c2 : Chain) (h : mintTo s d a c = Except.ok c2) :
    (∀ x, c2.lamports x = c.lamports x) ∧
    (∀ x, x ≠ d → c2.tokenAccounts x = c.tokenAccounts x) ∧
    (∃ t, c.tokenAccounts d = some t ∧
      c2.tokenAccounts d = some { t with amount := t.amount + a }) := by
  unfold mintTo at h
  rcases hm : c.spacexMint with _ | m
  · simp only [hm] at h
    exact absurd h (by simp)
  · simp only [hm] at h
    by_cases hI : m.isInit
    · rw [if_pos hI] at h
      by_cases hA : m.mintAuthority = some s
      · rw [if_pos hA] at h
        rcases hd : c.tokenAccounts d with _ | u
        · simp only [hd] at h
          exact absurd h (by simp)
        · simp only [hd] at h
          by_cases hM : u.mint = mintAddr
          · rw [if_pos hM] at h
            by_cases hS : m.supply + a < U64
            · rw [if_pos hS] at h
              by_cases hT : u.amount + a < U64
              · rw [if_pos hT] at h
                injection h with h'
                subst h'
                exact ⟨fun x => rfl, fun x hxd => by simp [hxd], u, rfl, by simp⟩
              · rw [if_neg hT] at h
                exact absurd h (by simp)
            · rw [if_neg hS] at h
              exact absurd h (by simp)
          · rw [if_neg hM] at h
            exact absurd h (by simp)
      · rw [if_neg hA] at h
        exact absurd h (by simp)
    · rw [if_neg hI] at h
      exact absurd h (by simp)

/-- Inversion of the mint-and-log tail: on success the conclusions of
`mintTo_inv` hold for the contributor's token account and the reward. -/
theorem mintAndLog_inv (donor amount : Nat) (c c2 : Chain) (tr : List Step)
    (h : (mintAndLog donor amount c tr).1 = Except.ok c2) :
    (∀ x, c2.lamports x = c.lamports x) ∧
    (∀ x, x ≠ ataAddr donor → c2.tokenAccounts x = c.tokenAccounts x) ∧
    (∃ t, c.tokenAccounts (ataAddr donor) = some t ∧
      c2.tokenAccounts (ataAddr donor) =
        some { t with amount := t.amount + rewardOf amount }) := by
  rw [mintAndLog] at h
  rcases hmt : mintTo (pdaSigner mintAuthoritySeed mintAuthorityBump) (ataAddr donor)
      (rewardOf amount) c with e | c2'
  · simp only [hmt] at h
    exact absurd h (by simp)
  · simp only [hmt] at h
    injection h with h'
    subst h'
    exact mintTo_inv _ _ _ _ _ hmt

/-- Inversion of the handler body: on success the vault is credited by
exactly the request amount, other token accounts are untouched, and the
contributor's token account either grew by exactly the reward or was created
holding exactly the reward. -/
theorem handlerBody_inv (donor amount : Nat) (c c2 : Chain)
    (h : (handlerBody donor amount c).1 = Except.ok c2) :
    (donor ≠ vaultAddr → c2.lamports vaultAddr = c.lamports vaultAddr + amount) ∧
    (∀ x, x ≠ ataAddr donor → c2.tokenAccounts x = c.tokenAccounts x) ∧
    ((∃ t, c.tokenAccounts (ataAddr donor) = some t ∧
        c2.tokenAccounts (ataAddr donor) =
          some { t with amount := t.amount + rewardOf amount }) ∨
      (c.tokenAccounts (ataAddr donor) = none ∧
        c2.tokenAccounts (ataAddr donor) =
          some { mint := mintAddr, owner := donor, amount := rewardOf amount })) := by
  rw [handlerBody] at h
  rcases htr : systemTransfer donor vaultAddr amount c with e | c1
  · simp only [htr] at h
    exact absurd h (by simp)
  · simp only [htr] at h
    obtain ⟨ttok, tmint, tlam⟩ := systemTransfer_inv donor vaultAddr amount c c1 htr
    by_cases hmi : isMintInit c1
    · rw [if_pos hmi] at h
      obtain ⟨mlam, mtok, t, hts, hts2⟩ := mintAndLog_inv donor amount c1 c2 _ h
      refine ⟨fun hdv => by rw [mlam, tlam hdv], fun x hx => by rw [mtok x hx, ttok x], ?_⟩
      exact Or.inl ⟨t, by rw [← ttok (ataAddr donor)]; exact hts, hts2⟩
    · rw [if_neg hmi] at h
      rcases him : initMintOp 6 mintAuthorityAddr c1 with e | cm
      · simp only [him] at h
        exact absurd h (by simp)
      · simp only [him] at h
        obtain ⟨ilam, itok⟩ := initMintOp_inv 6 mintAuthorityAddr c1 cm him
        by_cases hht : hasTokenAccount donor cm
        · rw [if_pos hht] at h
          obtain ⟨mlam, mtok, t, hts, hts2⟩ := mintAndLog_inv donor amount cm c2 _ h
          refine ⟨fun hdv => by rw [mlam, ilam, tlam hdv],
            fun x hx => by rw [mtok x hx, itok x, ttok x], ?_⟩
          exact Or.inl ⟨t, by rw [← ttok (ataAddr donor), ← itok (ataAddr donor)]; exact hts,
            hts2⟩
        · rw [if_neg hht] at h
          rcases hac : ataCreate donor cm with e | ca
          · simp only [hac] at h
            exact absurd h (by simp)
          · simp only [hac] at h
            obtain ⟨alam, amint, atok, apre, apost⟩ := ataCreate_inv donor cm ca hac
            obtain ⟨mlam, mtok, t, hts, hts2⟩ := mintAndLog_inv donor amount ca c2 _ h
            have htv : t = { mint := mintAddr, owner := donor, amount := 0 } := by
              rw [apost] at hts
              injection hts with h4
              exact h4.symm
            refine ⟨fun hdv => by rw [mlam, alam, ilam, tlam hdv],
              fun x hx => by rw [mtok x hx, atok x hx, itok x, ttok x], ?_⟩
            refine Or.inr ⟨by rw [← ttok (ataAddr donor), ← itok (ataAddr donor)]; exact apre, ?_⟩
            rw [hts2, htv]
            simp

/-- C9: ContributorBalance amounts are monotonically non-decreasing under
record_donation, every increase equals the reward amount / 1_000_000 computed
from the value transferred in the same request, and the vault is credited by
exactly that value. -/
theorem contributorBalance_monotone (donor amount : Nat) (c c2 : Chain)
    (hdv : donor ≠ vaultAddr)
    (h : (recordDonation donor amount c).1 = Except.ok c2) :
    c2.lamports vaultAddr = c.lamports vaultAddr + amount ∧
    (∀ x t t', c.tokenAccounts x = some t → c2.tokenAccounts x = some t' →
      t.amount ≤ t'.amount ∧
      (t'.amount = t.amount + rewardOf amount ∨ t'.amount = t.amount)) := by
  rw [recordDonation] at h
  rcases hval : validateAccounts donor c with e | c0
  · simp only [hval] at h
    exact absurd h (by simp)
  · simp only [hval] at h
    obtain ⟨vlam, vtok, vata⟩ := validateAccounts_inv donor c c0 hval
    obtain ⟨hvault, htok, hata⟩ := handlerBody_inv donor amount c0 c2 h
    refine ⟨by rw [hvault hdv, vlam vaultAddr], ?_⟩
    intro x t t' hct hct'
    by_cases hx : x = ataAddr donor
    · subst hx
      rcases vata with hsame | ⟨hnone, _⟩
      · rcases hata with ⟨u, hu, hu2⟩ | ⟨hnone0, _⟩
        · rw [hsame, hct] at hu
          injection hu with hu'
          subst hu'
          rw [hu2] at hct'
          injection hct' with h5
          subst h5
          exact ⟨Nat.le_add_right _ _, Or.inl rfl⟩
        · rw [hsame, hct] at hnone0
          exact absurd hnone0 (by simp)
      · rw [hct] at hnone
        exact absurd hnone (by simp)
    · rw [htok x hx, vtok x hx, hct] at hct'
      injection hct' with h5
      subst h5
      exact ⟨Nat.le_refl _, Or.inr rfl⟩

/-- C1: for every amount > 0, one successful record_donation(amount) from a
contributor with no prior donations credits the CollectingAccount (vault) by
exactly the amount, leaves the contributor's balance equal to
amount / 1_000_000 by integer floor division, and the RewardMint exists with
decimals 6. -/
theorem recordDonation_fresh_contributor_spec (donor amount : Nat) (c : Chain)
    (hpos : 0 < amount) (hu : amount < U64)
    (hdv : donor ≠ vaultAddr)
    (ht : c.tokenAccounts (ataAddr donor) = none)
    (hbal : amount ≤ c.lamports donor)
    (hcap : c.lamports vaultAddr + amount < U64)
    (hmint : c.spacexMint = none ∨
      ∃ m, c.spacexMint = some m ∧ m.isInit = true ∧ m.decimals = 6 ∧
        m.mintAuthority = some mintAuthorityAddr ∧ m.supply + rewardOf amount < U64) :
    ∃ c2, (recordDonation donor amount c).1 = Except.ok c2 ∧
      c2.lamports vaultAddr = c.lamports vaultAddr + amount ∧
      (∃ tb, c2.tokenAccounts (ataAddr donor) = some tb ∧ tb.owner = donor ∧
        tb.amount = rewardOf amount) ∧
      (∃ m2, c2.spacexMint = some m2 ∧ m2.decimals = 6 ∧ m2.isInit = true) := by
  have hrw : rewardOf amount < U64 := lt_of_le_of_lt (Nat.div_le_self _ _) hu
  rcases hmint with hm | ⟨m, hm, hmI, hmD, hmA, hsup⟩
  · obtain ⟨c2, heq, hv, _, _, hmint2, htok, _⟩ :=
      recordDonation_freshAll_ok donor amount c hm ht hdv hbal hcap hrw
    exact ⟨c2, by rw [heq], hv, ⟨_, htok, rfl, rfl⟩, ⟨_, hmint2, rfl, rfl⟩⟩
  · obtain ⟨c2, heq, hv, _, _, hmint2, htok, _⟩ :=
      recordDonation_freshToken_ok donor amount c m hm hmI hmD hmA ht hdv hbal hcap hsup hrw
    exact ⟨c2, by rw [heq], hv, ⟨_, htok, rfl, rfl⟩,
      ⟨_, hmint2, by simpa using hmD, by simpa using hmI⟩⟩

/-- C1 witness: the theorem applied to donor 101 donating 7_000_000 on the
fresh deployment `chainA`. -/
theorem recordDonation_fresh_contributor_spec_witness :
    0 < 7000000 ∧ chainA.tokenAccounts (ataAddr 101) = none ∧
    (∃ c2, (recordDonation 101 7000000 chainA).1 = Except.ok c2 ∧
      c2.lamports vaultAddr = chainA.lamports vaultAddr + 7000000 ∧
      (∃ tb, c2.tokenAccounts (ataAddr 101) = some tb ∧ tb.owner = 101 ∧
        tb.amount = rewardOf 7000000) ∧
      (∃ m2, c2.spacexMint = some m2 ∧ m2.decimals = 6 ∧ m2.isInit = true)) :=
  ⟨by decide, rfl,
    recordDonation_fresh_contributor_spec 101 7000000 chainA (by decide) (by decide)
      (by decide) rfl (by decide) (by decide) (Or.inl rfl)⟩

/-- C3: two invocations from two different contributors never create the
reward mint twice: the second request's step log shows the authority-field
inspection and no mint-creation step, the mint keeps its metadata with only
the supply moving, and each contributor ends with an independent balance. -/
theorem rewardMint_created_at_most_once (d1 d2 a1 a2 : Nat) (c : Chain)
    (hm : c.spacexMint = none)
    (ht1 : c.tokenAccounts (ataAddr d1) = none)
    (ht2 : c.tokenAccounts (ataAddr d2) = none)
    (hdd : d1 ≠ d2) (hata : ataAddr d1 ≠ ataAddr d2)
    (hv1 : d1 ≠ vaultAddr) (hv2 : d2 ≠ vaultAddr)
    (hb1 : a1 ≤ c.lamports d1) (hb2 : a2 ≤ c.lamports d2)
    (hcap : c.lamports vaultAddr + a1 + a2 < U64)
    (hu1 : a1 < U64) (hu2 : a2 < U64)
    (hsum : rewardOf a1 + rewardOf a2 < U64) :
    ∃ c1 c2,
      (recordDonation d1 a1 c).1 = Except.ok c1 ∧
      (recordDonation d2 a2 c1).1 = Except.ok c2 ∧
      c1.spacexMint = some { anchorInitMint with supply := rewardOf a1 } ∧
      c2.spacexMint = some { anchorInitMint with supply := rewardOf a1 + rewardOf a2 } ∧
      Step.checkMintInit ∈ (recordDonation d2 a2 c1).2 ∧
      Step.initMint ∉ (recordDonation d2 a2 c1).2 ∧
      c2.tokenAccounts (ataAddr d1) =
        some { mint := mintAddr, owner := d1, amount := rewardOf a1 } ∧
      c2.tokenAccounts (ataAddr d2) =
        some { mint := mintAddr, owner := d2, amount := rewardOf a2 } := by
  have hrw1 : rewardOf a1 < U64 := lt_of_le_of_lt (Nat.div_le_self _ _) hu1
  obtain ⟨c1, heq1, hvv1, hld1, hl1, hmint1, htok1, htoks1⟩ :=
    recordDonation_freshAll_ok d1 a1 c hm ht1 hv1 hb1 (by omega) hrw1
  have ht2' : c1.tokenAccounts (ataAddr d2) = none := by
    rw [htoks1 _ (Ne.symm hata)]
    exact ht2
  have hb2' : a2 ≤ c1.lamports d2 := by
    rw [hl1 d2 (Ne.symm hdd) hv2]
    exact hb2
  have hcap2 : c1.lamports vaultAddr + a2 < U64 := by
    rw [hvv1]
    omega
  obtain ⟨c2, heq2, hvv2, hld2, hl2, hmint2, htok2, htoks2⟩ :=
    recordDonation_freshToken_ok d2 a2 c1 { anchorInitMint with supply := rewardOf a1 }
      hmint1 rfl rfl rfl ht2' hv2 hb2' hcap2 hsum
      (lt_of_le_of_lt (Nat.div_le_self _ _) hu2)
  refine ⟨c1, c2, by rw [heq1], by rw [heq2], hmint1, by rw [hmint2], ?_, ?_, ?_, htok2⟩
  · rw [heq2]
    simp
  · rw [heq2]
    simp
  · rw [htoks2 _ hata]
    exact htok1

/-- C3 witness: the theorem applied to donors 101 and 202 donating 7_000_000
and 3_000_000 on the fresh deployment `chainA`. -/
theorem rewardMint_created_at_most_once_witness :
    chainA.spacexMint = none ∧ ataAddr 101 ≠ ataAddr 202 ∧
    (∃ c1 c2,
      (recordDonation 101 7000000 chainA).1 = Except.ok c1 ∧
      (recordDonation 202 3000000 c1).1 = Except.ok c2 ∧
      c1.spacexMint = some { anchorInitMint with supply := rewardOf 7000000 } ∧
      c2.spacexMint =
        some { anchorInitMint with supply := rewardOf 7000000 + rewardOf 3000000 } ∧
      Step.checkMintInit ∈ (recordDonation 202 3000000 c1).2 ∧
      Step.initMint ∉ (recordDonation 202 3000000 c1).2 ∧
      c2.tokenAccounts (ataAddr 101) =
        some { mint := mintAddr, owner := 101, amount := rewardOf 7000000 } ∧
      c2.tokenAccounts (ataAddr 202) =
        some { mint := mintAddr, owner := 202, amount := rewardOf 3000000 }) :=
  ⟨rfl, by decide,
    rewardMint_created_at_most_once 101 202 7000000 3000000 chainA rfl rfl rfl
      (by decide) (by decide) (by decide) (by decide) (by decide) (by decide)
      (by decide) (by decide) (by decide) (by decide)⟩

/-- C2: any failing request commits nothing, and in particular when the final
mint step is forced to fail (mint supply with no room for the reward) the
value-transfer step would succeed on its own, yet the request aborts and the
committed vault balance is unchanged. -/
theorem recordDonation_atomic_mint_failure
    (donor amount : Nat) (c : Chain) (m : MintAccount) (t : TokenAccount)
    (hm : c.spacexMint = some m) (hmI : m.isInit = true) (hmD : m.decimals = 6)
    (hmA : m.mintAuthority = some mintAuthorityAddr)
    (ht : c.tokenAccounts (ataAddr donor) = some t)
    (htO : t.owner = donor) (htM : t.mint = mintAddr)
    (hdv : donor ≠ vaultAddr)
    (hbal : amount ≤ c.lamports donor)
    (hcap : c.lamports vaultAddr + amount < U64)
    (hnsup : U64 ≤ m.supply + rewardOf amount) :
    (∀ d a cp e, (recordDonation d a cp).1 = Except.error e →
      commitTx cp (recordDonation d a cp).1 = cp) ∧
    (∃ c1, systemTransfer donor vaultAddr amount c = Except.ok c1 ∧
      c1.lamports vaultAddr = c.lamports vaultAddr + amount) ∧
    (recordDonation donor amount c).1 = Except.error TxError.overflow ∧
    (commitTx c (recordDonation donor amount c).1).lamports vaultAddr =
      c.lamports vaultAddr := by
  have hfail := recordDonation_mintStep_fails donor amount c m t hm hmI hmD hmA ht htO htM
    hdv hbal hcap hnsup
  refine ⟨?_, ?_, ?_, ?_⟩
  · intro d a cp e h
    rw [h]
    rfl
  · obtain ⟨c1, heq, hvv, _⟩ := systemTransfer_ok donor vaultAddr amount c hdv hbal hcap
    exact ⟨c1, heq, hvv⟩
  · rw [hfail]
  · rw [hfail]
    rfl

/-- C2 witness: the theorem applied to a 1_000_000 donation on `chainD`,
whose mint supply already sits at the u64 maximum. -/
theorem recordDonation_atomic_mint_failure_witness :
    U64 ≤ 18446744073709551615 + rewardOf 1000000 ∧
    (recordDonation 101 1000000 chainD).1 = Except.error TxError.overflow ∧
    (commitTx chainD (recordDonation 101 1000000 chainD).1).lamports vaultAddr =
      chainD.lamports vaultAddr :=
  ⟨by decide,
    (recordDonation_atomic_mint_failure 101 1000000 chainD
      ⟨some mintAuthorityAddr, 18446744073709551615, 6, true, none⟩ ⟨mintAddr, 101, 0⟩
      (by decide) rfl rfl rfl (by decide) rfl rfl (by decide) (by decide) (by decide)
      (by decide)).2.2.1,
    (recordDonation_atomic_mint_failure 101 1000000 chainD
      ⟨some mintAuthorityAddr, 18446744073709551615, 6, true, none⟩ ⟨mintAddr, 101, 0⟩
      (by decide) rfl rfl rfl (by decide) rfl rfl (by decide) (by decide) (by decide)
      (by decide)).2.2.2⟩

/-- C4 counterexample: a successful request on a deployment whose mint
already exists and whose contributor has no token account, with a step log
containing no owner-comparison existence check: the check is not performed on
every request. -/
theorem ownerCheck_not_every_request_cex :
    (recordDonation 101 2000000 chainB).1.isOk = true ∧
    Step.checkHasTokenAccount ∉ (recordDonation 101 2000000 chainB).2 := by
  decide

/-- C4 amended: the contributor-balance provisioning that runs on every
request is the validation-phase init_if_needed constraint: whenever the
account is absent, even though the RewardMint already exists, it is created
with zero amount before minting; the handler's owner-comparison existence
check, however, is not performed (it sits inside the mint-initialization
branch, which is skipped). -/
theorem tokenAccount_created_when_absent
    (donor amount : Nat) (c : Chain) (m : MintAccount)
    (hm : c.spacexMint = some m) (hmI : m.isInit = true) (hmD : m.decimals = 6)
    (hmA : m.mintAuthority = some mintAuthorityAddr)
    (ht : c.tokenAccounts (ataAddr donor) = none)
    (hdv : donor ≠ vaultAddr)
    (hbal : amount ≤ c.lamports donor)
    (hcap : c.lamports vaultAddr + amount < U64)
    (hsup : m.supply + rewardOf amount < U64)
    (hrw : rewardOf amount < U64) :
    (∃ c0, validateAccounts donor c = Except.ok c0 ∧
      c0.tokenAccounts (ataAddr donor) =
        some { mint := mintAddr, owner := donor, amount := 0 }) ∧
    (∃ c2, (recordDonation donor amount c).1 = Except.ok c2 ∧
      c2.tokenAccounts (ataAddr donor) =
        some { mint := mintAddr, owner := donor, amount := rewardOf amount }) ∧
    Step.checkHasTokenAccount ∉ (recordDonation donor amount c).2 := by
  obtain ⟨c2, heq, _, _, _, _, htok, _⟩ :=
    recordDonation_freshToken_ok donor amount c m hm hmI hmD hmA ht hdv hbal hcap hsup hrw
  refine ⟨⟨_, validateAccounts_freshToken_eq donor c m hm hmI hmD hmA ht,
    by simp [setTokenAccount]⟩, ⟨c2, by rw [heq], htok⟩, ?_⟩
  rw [heq]
  simp

/-- C4 witness: the amended theorem applied to donor 101 donating 2_000_000
on `chainB`, where the mint exists but the token account does not. -/
theorem tokenAccount_created_when_absent_witness :
    chainB.spacexMint = some anchorInitMint ∧
    chainB.tokenAccounts (ataAddr 101) = none ∧
    ((∃ c0, validateAccounts 101 chainB = Except.ok c0 ∧
      c0.tokenAccounts (ataAddr 101) =
        some { mint := mintAddr, owner := 101, amount := 0 }) ∧
    (∃ c2, (recordDonation 101 2000000 chainB).1 = Except.ok c2 ∧
      c2.tokenAccounts (ataAddr 101) =
        some { mint := mintAddr, owner := 101, amount := rewardOf 2000000 }) ∧
    Step.checkHasTokenAccount ∉ (recordDonation 101 2000000 chainB).2) :=
  ⟨rfl, rfl,
    tokenAccount_created_when_absent 101 2000000 chainB anchorInitMint rfl rfl rfl rfl
      rfl (by decide) (by decide) (by decide) (by decide) (by decide)⟩

/-- C5: a donation strictly below the conversion threshold succeeds, the full
amount reaches the vault, the mint step executes with reward amount 0, and
the contributor's balance is left unchanged. -/
theorem recordDonation_below_threshold
    (donor amount : Nat) (c : Chain) (m : MintAccount) (t : TokenAccount)
    (hlt : amount < 1000000)
    (hm : c.spacexMint = some m) (hmI : m.isInit = true) (hmD : m.decimals = 6)
    (hmA : m.mintAuthority = some mintAuthorityAddr)
    (ht : c.tokenAccounts (ataAddr donor) = some t)
    (htO : t.owner = donor) (htM : t.mint = mintAddr)
    (hdv : donor ≠ vaultAddr)
    (hbal : amount ≤ c.lamports donor)
    (hcap : c.lamports vaultAddr + amount < U64)
    (hsup : m.supply < U64) (hta : t.amount < U64) :
    rewardOf amount = 0 ∧
    ∃ c2, (recordDonation donor amount c).1 = Except.ok c2 ∧
      c2.lamports vaultAddr = c.lamports vaultAddr + amount ∧
      c2.tokenAccounts (ataAddr donor) = some t ∧
      Step.mintTo 0 ∈ (recordDonation donor amount c).2 := by
  have hr0 : rewardOf amount = 0 := Nat.div_eq_of_lt hlt
  obtain ⟨c2, heq, hv, _, _, _, htok, _⟩ :=
    recordDonation_existing_ok donor amount c m t hm hmI hmD hmA ht htO htM hdv hbal hcap
      (by rw [hr0]; simpa using hsup) (by rw [hr0]; simpa using hta)
  refine ⟨hr0, c2, by rw [heq], hv, ?_, ?_⟩
  · rw [htok, hr0]
    cases t
    simp_all
  · rw [heq]
    rw [hr0]
    simp

/-- C5 witness: the theorem applied to donor 101 donating 500_000 on
`chainC`, whose token account already holds 12 reward tokens. -/
theorem recordDonation_below_threshold_witness :
    (500000 : Nat) < 1000000 ∧
    (rewardOf 500000 = 0 ∧
    ∃ c2, (recordDonation 101 500000 chainC).1 = Except.ok c2 ∧
      c2.lamports vaultAddr = chainC.lamports vaultAddr + 500000 ∧
      c2.tokenAccounts (ataAddr 101) = some ⟨mintAddr, 101, 12⟩ ∧
      Step.mintTo 0 ∈ (recordDonation 101 500000 chainC).2) :=
  ⟨by decide,
    recordDonation_below_threshold 101 500000 chainC
      ⟨some mintAuthorityAddr, 40, 6, true, none⟩ ⟨mintAddr, 101, 12⟩ (by decide) rfl rfl
      rfl rfl (by decide) rfl rfl (by decide) (by decide) (by decide) (by decide)
      (by decide)⟩

/-- C6: minting is additive over repeated requests from the same contributor:
the second request adds its reward to the existing balance rather than
overwriting it, ending with the sum of the two rewards. -/
theorem recordDonation_accumulates (donor a1 a2 : Nat) (c : Chain)
    (hm : c.spacexMint = none)
    (ht : c.tokenAccounts (ataAddr donor) = none)
    (hdv : donor ≠ vaultAddr)
    (hbal : a1 + a2 ≤ c.lamports donor)
    (hcap : c.lamports vaultAddr + a1 + a2 < U64)
    (hu1 : a1 < U64) (hu2 : a2 < U64)
    (hsum : rewardOf a1 + rewardOf a2 < U64) :
    ∃ c1 c2 t1,
      (recordDonation donor a1 c).1 = Except.ok c1 ∧
      c1.tokenAccounts (ataAddr donor) = some t1 ∧ t1.amount = rewardOf a1 ∧
      (recordDonation donor a2 c1).1 = Except.ok c2 ∧
      c2.tokenAccounts (ataAddr donor) =
        some { t1 with amount := t1.amount + rewardOf a2 } ∧
      (∀ tb, c2.tokenAccounts (ataAddr donor) = some tb →
        tb.amount = rewardOf a1 + rewardOf a2) := by
  have hrw1 : rewardOf a1 < U64 := lt_of_le_of_lt (Nat.div_le_self _ _) hu1
  obtain ⟨c1, heq1, hvv1, hld1, hl1, hmint1, htok1, htoks1⟩ :=
    recordDonation_freshAll_ok donor a1 c hm ht hdv (by omega) (by omega) hrw1
  have hb2 : a2 ≤ c1.lamports donor := by
    rw [hld1]
    omega
  have hcap2 : c1.lamports vaultAddr + a2 < U64 := by
    rw [hvv1]
    omega
  obtain ⟨c2, heq2, hvv2, hld2, hl2, hmint2, htok2, htoks2⟩ :=
    recordDonation_existing_ok donor a2 c1 { anchorInitMint with supply := rewardOf a1 }
      { mint := mintAddr, owner := donor, amount := rewardOf a1 }
      hmint1 rfl rfl rfl htok1 rfl rfl hdv hb2 hcap2 hsum hsum
  refine ⟨c1, c2, { mint := mintAddr, owner := donor, amount := rewardOf a1 },
    by rw [heq1], htok1, rfl, by rw [heq2], by rw [htok2], ?_⟩
  intro tb htb
  rw [htok2] at htb
  injection htb with h5
  rw [← h5]

/-- C6 witness: the theorem applied to donor 101 donating 2_000_000 then
3_000_000 on the fresh deployment `chainA`; the final balance is 2 + 3 = 5. -/
theorem recordDonation_accumulates_witness :
    rewardOf 2000000 + rewardOf 3000000 = 5 ∧
    (∃ c1 c2 t1,
      (recordDonation 101 2000000 chainA).1 = Except.ok c1 ∧
      c1.tokenAccounts (ataAddr 101) = some t1 ∧ t1.amount = rewardOf 2000000 ∧
      (recordDonation 101 3000000 c1).1 = Except.ok c2 ∧
      c2.tokenAccounts (ataAddr 101) =
        some { t1 with amount := t1.amount + rewardOf 3000000 } ∧
      (∀ tb, c2.tokenAccounts (ataAddr 101) = some tb →
        tb.amount = rewardOf 2000000 + rewardOf 3000000)) :=
  ⟨by decide,
    recordDonation_accumulates 101 2000000 3000000 chainA rfl rfl (by decide) (by decide)
      (by decide) (by decide) (by decide) (by decide)⟩

/-- C8: derived-address computation is deterministic: two invocations with
identical seeds and program id that both return a result return the identical
address and the identical bump. -/
theorem pda_derivation_deterministic (seeds : List Nat) (pid a1 b1 a2 b2 : Nat)
    (h1 : findProgramAddress seeds pid = some (a1, b1))
    (h2 : findProgramAddress seeds pid = some (a2, b2)) :
    a1 = a2 ∧ b1 = b2 := by
  rw [h1] at h2
  injection h2 with h3
  exact ⟨congrArg Prod.fst h3, congrArg Prod.snd h3⟩

/-- C8 witness: the theorem applied twice to the vault tag, whose derivation
returns the vault address and its bump. -/
theorem pda_derivation_deterministic_witness :
    findProgramAddress donationVaultSeed programId = some (vaultAddr, vaultPda.2) ∧
    vaultAddr = vaultAddr ∧ vaultPda.2 = vaultPda.2 :=
  ⟨by decide,
    pda_derivation_deterministic donationVaultSeed programId vaultAddr vaultPda.2
      vaultAddr vaultPda.2 (by decide) (by decide)⟩

/-- C9 witness: the theorem applied to donor 101 donating 7_000_000 on
`chainA`, with the committed post-state `chainA2`. -/
theorem contributorBalance_monotone_witness :
    (101 : Nat) ≠ vaultAddr ∧
    chainA2.lamports vaultAddr = chainA.lamports vaultAddr + 7000000 :=
  ⟨by decide,
    (contributorBalance_monotone 101 7000000 chainA chainA2 (by decide) rfl).1⟩

/-- C10: the counter's decrement never fails and never underflows: at zero
the count stays zero, and at any positive count it decreases by exactly one
(saturating subtraction at zero). -/
theorem counter_decrement_saturates (c : Counter) :
    counterDecrement c = Except.ok { count := c.count - 1 } ∧
    (c.count = 0 → counterDecrement c = Except.ok { count := 0 }) ∧
    (0 < c.count → (c.count - 1) + 1 = c.count) := by
  refine ⟨rfl, ?_, ?_⟩
  · intro h0
    rw [counterDecrement, h0]
  · intro hpos
    omega

/-- C10 witness: the theorem applied at counts 0 and 7. -/
theorem counter_decrement_saturates_witness :
    counterDecrement { count := 0 } = Except.ok { count := 0 } ∧
    (0 < 7 ∧ (7 - 1) + 1 = 7) :=
  ⟨(counter_decrement_saturates { count := 0 }).2.1 rfl,
    by decide, (counter_decrement_saturates { count := 7 }).2.2 (by decide)⟩
